import Mathlib

/-!
Shallow embedding of the request-parsing and response-dispatch core of
`sketch_temp_mon.ino` (an Arduino temperature/humidity web monitor), together
with theorems settling the specification claims about it.

Modelling conventions:

* C strings (null-terminated `char` buffers) are modelled as `List Char`
  holding the characters before the terminator; reading an index at or past
  the terminator yields the NUL character (`nthCharC`).
* The C `float` values flowing through the sketch are modelled by `FloatV`:
  either the not-a-number sentinel produced by a failed DHT read, or an exact
  rational payload.  The embedded code performs no float arithmetic — it only
  moves readings around and tests `isnan` — so the exact payload is a faithful
  carrier.
* A DHT sensor object is modelled by its two read methods
  (`readTemperature(S)`, where `S = true` selects Fahrenheit, and
  `readHumidity()`), each of which may yield the NaN sentinel.
* The `strtok` call chains in `GetParms` are modelled by `strtokAll`: the
  sequence of maximal nonempty delimiter-free runs of the input, which is
  exactly the sequence of tokens successive `strtok` calls return.
-/

namespace TempMon

/-- Model of a C `float` in this sketch: the not-a-number sentinel or an
exact numeric value. -/
inductive FloatV where
  | nan : FloatV
  | val : ℚ → FloatV
deriving DecidableEq

/-- Model of C `isnan` on `FloatV`. -/
def isnan : FloatV → Bool
  | .nan => true
  | .val _ => false

/-- Model of a DHT sensor object: `readTemperature(S)` (with `S = true`
meaning Fahrenheit, `S = false` — the library default — meaning Celsius) and
`readHumidity()`. -/
structure DHT where
  readTemperature : Bool → FloatV
  readHumidity : FloatV

/-- Reading index `i` of a C string modelled as `List Char`: characters
before the terminator, and the NUL character at (or beyond) the
terminator. -/
def nthCharC (s : List Char) (i : Nat) : Char :=
  if h : i < s.length then s[i] else Char.ofNat 0

/-- The scanning loop of `InStr` (`sketch_temp_mon.ino`, lines 299-309):
walk `str1` one character at a time; on `str1[i] == str2[f]` increment the
match counter `f` and succeed once `f` reaches `strlen(str2)`; on a mismatch
reset `f` to `0` (without re-examining the current character). -/
def instrLoop (s2 : List Char) : List Char → Nat → Bool
  | [], _ => false
  | c :: rest, f =>
    if c = nthCharC s2 f then
      if s2.length = f + 1 then true
      else instrLoop s2 rest (f + 1)
    else instrLoop s2 rest 0

/-- Embedding of `InStr(str1, str2)` (`sketch_temp_mon.ino`, lines 289-312):
return `0` up front when `strlen(str2) > strlen(str1)`, otherwise run the
scanning loop from `i = 0`, `f = 0`. -/
def InStr (str1 str2 : List Char) : Bool :=
  if str2.length > str1.length then false else instrLoop str2 str1 0

/-- The specification-side substring relation: `needle` occurs contiguously
inside `hay`. -/
def IsSubstr (needle hay : List Char) : Prop :=
  ∃ a b, a ++ needle ++ b = hay

/-- One `strtok` call chain over delimiter `d`, with accumulator `cur`
holding the (reversed) characters of the token currently being read: yields
the sequence of maximal nonempty `d`-free runs of the input, exactly the
tokens successive `strtok(·, d)` calls return. -/
def strtokRun (d : Char) : List Char → List Char → List (List Char)
  | [], cur => if cur = [] then [] else [cur.reverse]
  | c :: rest, cur =>
    if c = d then
      if cur = [] then strtokRun d rest []
      else cur.reverse :: strtokRun d rest []
    else strtokRun d rest (c :: cur)

/-- All tokens a `strtok(s, d)` call chain produces. -/
def strtokAll (d : Char) (s : List Char) : List (List Char) :=
  strtokRun d s []

/-- The URL extraction step of `GetParms` (lines 204-207): two
`strtok(·, " ")` calls take the second space-delimited field of the request
line as the URL (`[]`, i.e. the NULL token, when there is no second
field). -/
def secondField (req : List Char) : List Char :=
  match strtokAll ' ' req with
  | _ :: url :: _ => url
  | _ => []

/-- The storing loop of `GetParms` (lines 210-220), instrumented with the
write trace: walk the `/`-tokens `ws` with index `i`; while `i < num_parms`
store token `w` at `parms[i]` (recorded as the pair `(i, w)`) and continue;
once `i` reaches `num_parms` print a diagnostic and break.  Returns the list
of writes and the final value of `i` (the returned parameter count). -/
def storeParmsW (num_parms : Nat) : List (List Char) → Nat → List (Nat × List Char) × Nat
  | [], i => ([], i)
  | w :: ws, i =>
    if i < num_parms then
      let r := storeParmsW num_parms ws (i + 1)
      ((i, w) :: r.1, r.2)
    else ([], i)

/-- Embedding of `GetParms(req, parms, num_parms)` (lines 198-223): extract
the URL as the second space-delimited field of the request line, tokenize it
on `/`, and store at most `num_parms` segments; returns the stored segments
and the count. -/
def GetParms (req : List Char) (num_parms : Nat) : List (List Char) × Nat :=
  let r := storeParmsW num_parms (strtokAll '/' (secondField req)) 0
  (r.1.map Prod.snd, r.2)

/-- The write trace of `GetParms`: each pair `(i, w)` is one `parms[i] = w`
assignment the storing loop performs. -/
def GetParmsWrites (req : List Char) (num_parms : Nat) : List (Nat × List Char) :=
  (storeParmsW num_parms (strtokAll '/' (secondField req)) 0).1

/-- The `err` code `HandleParms` sets for an invalid sensor segment
(line 266: `err = 1`), named `InvalidSensor` by the specification. -/
def errInvalidSensor : Nat := 1

/-- The `err` code `HandleParms` sets for an invalid unit-option segment
(line 248: `err = 2`), named `InvalidOption` by the specification. -/
def errInvalidOption : Nat := 2

/-- The `err` code `HandleParms` sets for an invalid operation segment
(line 278: `err = 3`), named `InvalidOperation` by the specification. -/
def errInvalidOperation : Nat := 3

/-- Instrumented embedding of
`HandleParms(parms, num_parms, sensors, num_sensors)` (lines 225-287),
returning the pair of the float the C function returns and the final value of
its internal `err` variable (`0` = no error, `1` = invalid sensor, `2` =
invalid option, `3` = invalid operation).  The C function itself returns only
the float — see `HandleParms` below.  Steps, in source order: when
`num_parms > 2` the option segment `parms[2]` must be `"c"` (Celsius) or
`"f"` (Fahrenheit, the default), else `err = 2`; the sensor segment
`parms[0]` is compared against the literals `"sensor0"`..`"sensor5"`, else
`err = 1` (overwriting any earlier `err`); only when `err == 0` is the
operation segment `parms[1]` consulted (`"temp"` reads temperature with the
resolved unit flag, `"humidity"` reads humidity, else `err = 3`); finally
`ret = 0` whenever `err != 0`. -/
def HandleParmsE (parms : List (List Char)) (num_parms : Nat)
    (sensors : Nat → DHT) (num_sensors : Nat) : FloatV × Nat :=
  let s := parms.getD 0 []
  let op := parms.getD 1 []
  let optRes : Bool × Nat :=
    if num_parms > 2 then
      let opt := parms.getD 2 []
      if opt = "c".toList then (false, 0)
      else if opt = "f".toList then (true, 0)
      else (true, 2)
    else (true, 0)
  let f := optRes.1
  let err0 := optRes.2
  let senRes : Nat × Nat :=
    if s = "sensor0".toList then (0, err0)
    else if s = "sensor1".toList then (1, err0)
    else if s = "sensor2".toList then (2, err0)
    else if s = "sensor3".toList then (3, err0)
    else if s = "sensor4".toList then (4, err0)
    else if s = "sensor5".toList then (5, err0)
    else (0, 1)
  let sensor := senRes.1
  let err1 := senRes.2
  let opRes : FloatV × Nat :=
    if err1 = 0 then
      if op = "temp".toList then ((sensors sensor).readTemperature f, err1)
      else if op = "humidity".toList then ((sensors sensor).readHumidity, err1)
      else (.val 0, 3)
    else (.val 0, err1)
  if opRes.2 ≠ 0 then (.val 0, opRes.2) else opRes

/-- The value `HandleParms` actually returns to its caller: the C signature
is `float HandleParms(...)`, so the caller in `loop` (line 162) receives only
the float, not the internal `err` code. -/
def HandleParms (parms : List (List Char)) (num_parms : Nat)
    (sensors : Nat → DHT) (num_sensors : Nat) : FloatV :=
  (HandleParmsE parms num_parms sensors num_sensors).1

/-- Numeric content of `format_data_short(dht, sensor)` (lines 332-341): the
sensor index and the three float fields (`readTemperature(true)`,
`readTemperature()`, `readHumidity()`), each float replaced by `0` when
`isnan` holds, in the order they are formatted into the comma-delimited body
line.  The `String` concatenation itself is vendor presentation code and out
of scope; the tuple holds exactly the values formatted. -/
def format_data_short (dht : DHT) (sensor : Nat) : Nat × FloatV × FloatV × FloatV :=
  let f := dht.readTemperature true
  let f := if isnan f then .val 0 else f
  let c := dht.readTemperature false
  let c := if isnan c then .val 0 else c
  let h := dht.readHumidity
  let h := if isnan h then .val 0 else h
  (sensor, f, c, h)

/-- Numeric content of `format_data_long(dht, label)` (lines 321-330): the
label and the three float fields, each float replaced by `0` when `isnan`
holds, in the order they are formatted into the HTML report line. -/
def format_data_long (dht : DHT) (label : List Char) : List Char × FloatV × FloatV × FloatV :=
  let f := dht.readTemperature true
  let f := if isnan f then .val 0 else f
  let c := dht.readTemperature false
  let c := if isnan c then .val 0 else c
  let h := dht.readHumidity
  let h := if isnan h then .val 0 else h
  (label, f, c, h)

/-- The three route categories the request loop distinguishes, plus the
fall-through case in which no branch fires (the response body is then the
bare HTML skeleton). -/
inductive Route where
  | root : Route
  | sensor : Route
  | report : Route
  | noMatch : Route
deriving DecidableEq

/-- The route classification chain of `loop` (lines 153-174): test
`InStr(HTTP_req, "GET / ")`, then `InStr(HTTP_req, "GET /s")`, then
`InStr(HTTP_req, "GET /report ")`, dispatching on the first match. -/
def classifyRequest (req : List Char) : Route :=
  if InStr req "GET / ".toList then .root
  else if InStr req "GET /s".toList then .sensor
  else if InStr req "GET /report ".toList then .report
  else .noMatch

/-- A well-formed HTTP/1.1 request line for path `path`:
`"GET " ++ path ++ " HTTP/1.1"`. -/
def lineOf (path : List Char) : List Char :=
  ['G', 'E', 'T', ' '] ++ path ++ (' ' :: ['H', 'T', 'T', 'P', '/', '1', '.', '1'])

/-- Capacity in bytes of the destination buffer `char label[] = ""`
(line 114): the characters of the initializer plus the NUL terminator. -/
def labelCapacity : Nat := "".toList.length + 1

/-- Number of bytes `sprintf(label, "DHT%d", j)` (line 168) writes: the
characters `DHT`, the decimal digits of `j`, and the NUL terminator. -/
def sprintfDHTBytes (j : Nat) : Nat :=
  ("DHT".toList ++ Nat.toDigits 10 j).length + 1

/-- A sensor model in which every read yields `0`. -/
def zeroSensors : Nat → DHT := fun _ => ⟨fun _ => .val 0, .val 0⟩

/-- A sensor whose every read fails with the NaN sentinel. -/
def nanDHT : DHT := ⟨fun _ => .nan, .nan⟩

/-- A sensor model in which every read fails with the NaN sentinel. -/
def nanSensors : Nat → DHT := fun _ => nanDHT

/-- The deterministic sensor model of the specification's dispatch
scenarios: sensor 0 reads 72.0 °F / 22.2 °C, sensor 3 reads humidity
45.5. -/
def mockSensors : Nat → DHT := fun i =>
  if i = 0 then ⟨fun b => if b then .val 72 else .val (22.2 : ℚ), .val 0⟩
  else if i = 3 then ⟨fun _ => .val 0, .val (45.5 : ℚ)⟩
  else ⟨fun _ => .val 0, .val 0⟩

/-! ## Helper lemmas about `InStr` -/

/-- Extending a substring occurrence by one leading character. -/
theorem IsSubstr_cons {n l : List Char} (c : Char) (h : IsSubstr n l) :
    IsSubstr n (c :: l) := by
  obtain ⟨a, b, hab⟩ := h
  exact ⟨c :: a, b, by rw [← hab]; rfl⟩

/-- Soundness of the `InStr` scanning loop: if it succeeds from match-counter
state `f`, then either the remaining needle `s2.drop f` starts the scanned
text, or the whole needle occurs somewhere in the scanned text. -/
theorem instrLoop_sound (s2 : List Char) :
    ∀ s1 f, instrLoop s2 s1 f = true →
      (∃ t, s2.drop f ++ t = s1) ∨ IsSubstr s2 s1 := by
  intro s1
  induction s1 with
  | nil => intro f h; simp [instrLoop] at h
  | cons c rest ih =>
    intro f h
    rw [instrLoop] at h
    by_cases hc : c = nthCharC s2 f
    · rw [if_pos hc] at h
      by_cases hlen : s2.length = f + 1
      · left
        have hf : f < s2.length := by omega
        have h3 : c = s2[f] := by rw [hc]; unfold nthCharC; rw [dif_pos hf]
        refine ⟨rest, ?_⟩
        rw [List.drop_eq_getElem_cons hf, List.drop_eq_nil_of_le (by omega), ← h3]
        rfl
      · rw [if_neg hlen] at h
        rcases ih (f + 1) h with ⟨t, ht⟩ | hsub
        · left
          by_cases hf : f < s2.length
          · have h3 : c = s2[f] := by rw [hc]; unfold nthCharC; rw [dif_pos hf]
            refine ⟨t, ?_⟩
            rw [List.drop_eq_getElem_cons hf, ← h3, List.cons_append, ht]
          · refine ⟨c :: rest, ?_⟩
            rw [List.drop_eq_nil_of_le (by omega)]
            rfl
        · right
          exact IsSubstr_cons c hsub
    · rw [if_neg hc] at h
      rcases ih 0 h with ⟨t, ht⟩ | hsub
      · right
        refine IsSubstr_cons c ⟨[], t, ?_⟩
        simpa using ht
      · right
        exact IsSubstr_cons c hsub

/-- `InStr` is sound: a `true` answer means the needle really occurs as a
contiguous substring of the haystack. -/
theorem InStr_implies_substr (str1 str2 : List Char) (h : InStr str1 str2 = true) :
    IsSubstr str2 str1 := by
  unfold InStr at h
  by_cases hlen : str2.length > str1.length
  · rw [if_pos hlen] at h
    exact absurd h (by simp)
  · rw [if_neg hlen] at h
    rcases instrLoop_sound str2 str1 0 h with ⟨t, ht⟩ | hsub
    · exact ⟨[], t, by simpa using ht⟩
    · exact hsub

/-- The scanning loop completes any nonempty pending suffix `v` of the needle
`u ++ v` when the scanned text starts with `v`. -/
theorem instrLoop_prefix (v : List Char) :
    v ≠ [] → ∀ u t, instrLoop (u ++ v) (v ++ t) u.length = true := by
  induction v with
  | nil => intro h; exact absurd rfl h
  | cons c v2 ih =>
    intro _ u t
    rw [List.cons_append, instrLoop]
    have hidx : u.length < (u ++ c :: v2).length := by simp
    have hget : nthCharC (u ++ c :: v2) u.length = c := by
      unfold nthCharC
      rw [dif_pos hidx, List.getElem_append_right (Nat.le_refl _)]
      simp
    rw [hget, if_pos rfl]
    by_cases hv2 : v2 = []
    · subst hv2
      rw [if_pos (by simp)]
    · have hpos : 0 < v2.length := List.length_pos.mpr hv2
      have hlen2 : (u ++ c :: v2).length = u.length + v2.length + 1 := by
        simp [List.length_append]
        omega
      rw [if_neg (by omega)]
      have hlen1 : u.length + 1 = (u ++ [c]).length := by simp
      rw [List.append_cons u c v2, hlen1]
      exact ih hv2 (u ++ [c]) t

/-- `InStr` does find every nonempty needle that starts the haystack. -/
theorem InStr_of_prefix (str1 str2 : List Char) (hne : str2 ≠ [])
    (h : ∃ t, str2 ++ t = str1) : InStr str1 str2 = true := by
  obtain ⟨t, rfl⟩ := h
  unfold InStr
  rw [if_neg (by simp)]
  simpa using instrLoop_prefix str2 hne [] t

/-- With an empty needle the scanning loop never succeeds: the success test
sits behind a character match, and the character compared is the needle's NUL
terminator. -/
theorem instrLoop_nil_needle : ∀ (s1 : List Char) (f : Nat), instrLoop [] s1 f = false := by
  intro s1
  induction s1 with
  | nil => intro f; rfl
  | cons c rest ih =>
    intro f
    rw [instrLoop]
    by_cases hc : c = nthCharC [] f
    · rw [if_pos hc, if_neg (by simp)]
      exact ih (f + 1)
    · rw [if_neg hc]
      exact ih 0

/-! ## Index lemmas about `nthCharC` and request lines -/

/-- `nthCharC` on the left part of an append. -/
theorem nthCharC_append_left {l1 l2 : List Char} {i : Nat} (h : i < l1.length) :
    nthCharC (l1 ++ l2) i = nthCharC l1 i := by
  unfold nthCharC
  have h2 : i < (l1 ++ l2).length := by simp; omega
  rw [dif_pos h2, dif_pos h, List.getElem_append_left h]

/-- `nthCharC` on the right part of an append. -/
theorem nthCharC_append_right {l1 l2 : List Char} {i : Nat} (h : l1.length ≤ i) :
    nthCharC (l1 ++ l2) i = nthCharC l2 (i - l1.length) := by
  unfold nthCharC
  by_cases h2 : i < (l1 ++ l2).length
  · have h3 : i - l1.length < l2.length := by simp at h2; omega
    rw [dif_pos h2, dif_pos h3, List.getElem_append_right h]
  · have h3 : ¬(i - l1.length < l2.length) := by simp at h2 ⊢; omega
    rw [dif_neg h2, dif_neg h3]

/-- `nthCharC` below a cons. -/
theorem nthCharC_cons_succ (c : Char) (l : List Char) (i : Nat) :
    nthCharC (c :: l) (i + 1) = nthCharC l i := by
  unfold nthCharC
  by_cases h : i < l.length
  · rw [dif_pos (by simp; omega), dif_pos h]
    exact List.getElem_cons_succ c l i (Nat.succ_lt_succ h)
  · rw [dif_neg (by simp; omega), dif_neg h]

/-- In-range `nthCharC` reads are members of the list. -/
theorem nthCharC_mem {l : List Char} {i : Nat} (h : i < l.length) :
    nthCharC l i ∈ l := by
  unfold nthCharC
  rw [dif_pos h]
  exact List.getElem_mem h

/-- A character of an occurring substring can be read off the enclosing
string at the corresponding offset. -/
theorem substr_nthCharC {a n b h : List Char} (hab : a ++ n ++ b = h)
    {i : Nat} (hi : i < n.length) : nthCharC h (a.length + i) = nthCharC n i := by
  subst hab
  rw [List.append_assoc, nthCharC_append_right (Nat.le_add_right _ _)]
  have he : a.length + i - a.length = i := by omega
  rw [he, nthCharC_append_left hi]

/-- In the request line `GET <path> HTTP/1.1` for a space-free path, the
only space characters sit at index 3 (after `GET`) and index
`4 + path.length` (after the path). -/
theorem lineOf_space_pos {path : List Char} (hp : ' ' ∉ path) {k : Nat}
    (hk : k < (lineOf path).length) (hsp : nthCharC (lineOf path) k = ' ') :
    k = 3 ∨ k = 4 + path.length := by
  have hL : (lineOf path).length = path.length + 13 := by
    simp [lineOf]
  unfold lineOf at hsp
  rcases Nat.lt_or_ge k 4 with h4 | h4
  · rw [List.append_assoc, nthCharC_append_left (by simp; omega)] at hsp
    interval_cases k
    · exact absurd hsp (by decide)
    · exact absurd hsp (by decide)
    · exact absurd hsp (by decide)
    · exact Or.inl rfl
  · rw [List.append_assoc,
      nthCharC_append_right (by simp; omega)] at hsp
    rw [show ((['G', 'E', 'T', ' '] : List Char)).length = 4 from rfl] at hsp
    rcases Nat.lt_or_ge (k - 4) path.length with hin | hge
    · rw [nthCharC_append_left hin] at hsp
      exact absurd (hsp ▸ nthCharC_mem hin) hp
    · rcases Nat.eq_or_lt_of_le hge with heq | hgt
      · right
        omega
      · rw [nthCharC_append_right (by omega)] at hsp
        have hj : k - 4 - path.length < 9 := by
          rw [hL] at hk
          omega
        obtain ⟨m, hm⟩ : ∃ m, k - 4 - path.length = m + 1 := ⟨k - 4 - path.length - 1, by omega⟩
        rw [hm, nthCharC_cons_succ] at hsp
        have hm8 : m < 8 := by omega
        interval_cases m <;> exact absurd hsp (by decide)

/-- The needle `"GET / "` does not occur in the request line
`GET <path> HTTP/1.1` unless the path has length 1: its two spaces would
have to sit two apart, but the line's only spaces sit `path.length + 1`
apart. -/
theorem no_root_occurrence {path : List Char} (hp : ' ' ∉ path)
    (hlen1 : path.length ≠ 1) : ¬ IsSubstr ("GET / ".toList) (lineOf path) := by
  rintro ⟨a, b, hab⟩
  have hL : (lineOf path).length = path.length + 13 := by
    simp [lineOf]
  have h6 : ("GET / ".toList).length = 6 := by decide
  have hlen : a.length + 6 + b.length = (lineOf path).length := by
    have h0 := congrArg List.length hab
    simp only [List.length_append] at h0
    omega
  have h3 : nthCharC (lineOf path) (a.length + 3) = ' ' := by
    rw [substr_nthCharC hab (by decide : (3 : Nat) < ("GET / ".toList).length)]
    decide
  have h5 : nthCharC (lineOf path) (a.length + 5) = ' ' := by
    rw [substr_nthCharC hab (by decide : (5 : Nat) < ("GET / ".toList).length)]
    decide
  have b3 := lineOf_space_pos hp (k := a.length + 3) (by omega) h3
  have b5 := lineOf_space_pos hp (k := a.length + 5) (by omega) h5
  omega

/-! ## Helper lemmas about `strtokAll` and `storeParmsW` -/

/-- Scanning a delimiter-free run prepends it (reversed) to the current
token accumulator. -/
theorem strtokRun_skip (d : Char) :
    ∀ t : List Char, (∀ x ∈ t, x ≠ d) → ∀ s cur,
      strtokRun d (t ++ s) cur = strtokRun d s (t.reverse ++ cur) := by
  intro t
  induction t with
  | nil => intro _ s cur; simp
  | cons c t2 ih =>
    intro ht s cur
    have hc : ¬(c = d) := ht c (List.mem_cons_self c t2)
    rw [List.cons_append]
    rw [show strtokRun d (c :: (t2 ++ s)) cur = strtokRun d (t2 ++ s) (c :: cur) from by
      simp only [strtokRun]; rw [if_neg hc]]
    rw [ih (fun x hx => ht x (List.mem_cons_of_mem _ hx)) s (c :: cur)]
    simp [List.reverse_cons, List.append_assoc]

/-- A nonempty delimiter-free token followed by a delimiter is emitted as
the next `strtok` token. -/
theorem strtokAll_token_delim (d : Char) {t : List Char} (hne : t ≠ [])
    (ht : ∀ x ∈ t, x ≠ d) (rest : List Char) :
    strtokAll d (t ++ d :: rest) = t :: strtokAll d rest := by
  unfold strtokAll
  rw [strtokRun_skip d t ht (d :: rest) [], List.append_nil]
  simp only [strtokRun]
  rw [if_pos trivial, if_neg (by simp [hne]), List.reverse_reverse]

/-- A nonempty delimiter-free remainder is emitted as the final `strtok`
token. -/
theorem strtokAll_token_only (d : Char) {t : List Char} (hne : t ≠ [])
    (ht : ∀ x ∈ t, x ≠ d) : strtokAll d t = [t] := by
  unfold strtokAll
  have h0 := strtokRun_skip d t ht [] []
  rw [List.append_nil] at h0
  rw [h0, List.append_nil]
  simp only [strtokRun]
  rw [if_neg (by simp [hne]), List.reverse_reverse]

/-- A leading delimiter is skipped. -/
theorem strtokAll_cons_delim (d : Char) (s : List Char) :
    strtokAll d (d :: s) = strtokAll d s := by
  unfold strtokAll
  simp only [strtokRun]
  rw [if_pos trivial, if_pos trivial]

/-- Every write the storing loop performs goes below the `num_parms`
bound. -/
theorem storeParmsW_writes_lt (num_parms : Nat) :
    ∀ (ws : List (List Char)) (i : Nat) (p : Nat × List Char),
      p ∈ (storeParmsW num_parms ws i).1 → p.1 < num_parms := by
  intro ws
  induction ws with
  | nil => intro i p hp; simp [storeParmsW] at hp
  | cons w ws2 ih =>
    intro i p hp
    simp only [storeParmsW] at hp
    by_cases hi : i < num_parms
    · rw [if_pos hi] at hp
      rcases List.mem_cons.mp hp with h | h
      · rw [h]
        exact hi
      · exact ih (i + 1) p h
    · rw [if_neg hi] at hp
      simp at hp

/-- The storing loop stores exactly the first `num_parms - i` tokens and
returns `min (i + #tokens) num_parms`. -/
theorem storeParmsW_spec (num_parms : Nat) :
    ∀ (ws : List (List Char)) (i : Nat), i ≤ num_parms →
      (storeParmsW num_parms ws i).1.map Prod.snd = ws.take (num_parms - i) ∧
      (storeParmsW num_parms ws i).2 = min (i + ws.length) num_parms := by
  intro ws
  induction ws with
  | nil =>
    intro i hi
    constructor
    · simp [storeParmsW]
    · simp [storeParmsW]
      omega
  | cons w ws2 ih =>
    intro i hi
    by_cases hilt : i < num_parms
    · obtain ⟨ih1, ih2⟩ := ih (i + 1) (by omega)
      constructor
      · simp only [storeParmsW, if_pos hilt, List.map_cons]
        rw [ih1]
        have he : num_parms - i = (num_parms - (i + 1)) + 1 := by omega
        rw [he, List.take_succ_cons]
      · simp only [storeParmsW, if_pos hilt]
        rw [ih2]
        simp only [List.length_cons]
        omega
    · have hieq : i = num_parms := by omega
      constructor
      · simp only [storeParmsW, if_neg hilt]
        have he : num_parms - i = 0 := by omega
        rw [he, List.take_zero]
        rfl
      · simp only [storeParmsW, if_neg hilt]
        simp only [List.length_cons]
        omega

/-! ## Further small helpers -/

/-- The NaN coercion `if (isnan(x)) x = 0;` always leaves a non-NaN
value. -/
theorem isnan_coerce (x : FloatV) :
    isnan (if isnan x then FloatV.val 0 else x) = false := by
  cases x <;> simp [isnan]

/-- The NaN coercion maps the NaN sentinel to `0`. -/
theorem coerce_of_nan {x : FloatV} (h : x = FloatV.nan) :
    (if isnan x then FloatV.val 0 else x) = FloatV.val 0 := by
  subst h
  rfl

/-- The closing `if (err != 0) ret = 0;` step of `HandleParms`: whenever the
returned pair carries a nonzero error code, its float component is `0`. -/
theorem pair_finalize {p : FloatV × Nat}
    (h : (if p.2 ≠ 0 then ((FloatV.val 0 : FloatV), p.2) else p).2 ≠ 0) :
    (if p.2 ≠ 0 then ((FloatV.val 0 : FloatV), p.2) else p).1 = FloatV.val 0 := by
  by_cases hp : p.2 ≠ 0
  · rw [if_pos hp]
  · rw [if_neg hp] at h
    exact absurd h hp

/-! ## Claim theorems -/

/-- Claim C1, counterexample: `"ab"` occurs as a contiguous substring of
`"aab"`, yet `InStr("aab", "ab")` returns false — the partial match on the
first `a` is thrown away on the mismatch at the second `a`, and the match
counter restarts only at the following character. -/
theorem C1_counterexample :
    IsSubstr "ab".toList "aab".toList ∧ InStr "aab".toList "ab".toList = false :=
  ⟨⟨['a'], [], by decide⟩, by decide⟩

/-- Claim C1, amended: `InStr(haystack, needle)` returns true only if
`needle` occurs as a contiguous substring of `haystack`; the converse
direction fails (see the counterexample), because a mismatch resets the
match counter to `0` without re-examining the current character. -/
theorem C1_amended (haystack needle : List Char) (h : InStr haystack needle = true) :
    IsSubstr needle haystack :=
  InStr_implies_substr haystack needle h

/-- Claim C1, witness: the amended theorem applied at a concrete successful
search. -/
theorem C1_witness :
    InStr "aba".toList "ba".toList = true ∧ IsSubstr "ba".toList "aba".toList :=
  ⟨by decide, C1_amended "aba".toList "ba".toList (by decide)⟩

/-- Claim C2, counterexample: on the single-sensor dispatch route a NaN
sensor reading is not replaced by `0` — with every read failing,
`HandleParms(["sensor0", "temp"], 2, ...)` hands the NaN sentinel straight
back to the caller, which formats it into the response body. -/
theorem C2_counterexample :
    isnan (HandleParms ["sensor0".toList, "temp".toList] 2 nanSensors 6) = true := by
  decide

/-- Claim C2, amended: in the compact root listing (`format_data_short`) and
the HTML report (`format_data_long`) every one of the three float fields is
independently coerced from NaN to `0` before being formatted; the dispatch
route performs no such coercion — for a valid `/sensor0/temp` request the
value returned (and then formatted) is the raw `readTemperature(true)`
reading, NaN included. -/
theorem C2_amended :
    (∀ (dht : DHT) (j : Nat) (label : List Char),
      isnan (format_data_short dht j).2.1 = false ∧
      isnan (format_data_short dht j).2.2.1 = false ∧
      isnan (format_data_short dht j).2.2.2 = false ∧
      isnan (format_data_long dht label).2.1 = false ∧
      isnan (format_data_long dht label).2.2.1 = false ∧
      isnan (format_data_long dht label).2.2.2 = false ∧
      (dht.readTemperature true = .nan → (format_data_short dht j).2.1 = .val 0) ∧
      (dht.readTemperature false = .nan → (format_data_short dht j).2.2.1 = .val 0) ∧
      (dht.readHumidity = .nan → (format_data_short dht j).2.2.2 = .val 0) ∧
      (dht.readTemperature true = .nan → (format_data_long dht label).2.1 = .val 0) ∧
      (dht.readTemperature false = .nan → (format_data_long dht label).2.2.1 = .val 0) ∧
      (dht.readHumidity = .nan → (format_data_long dht label).2.2.2 = .val 0)) ∧
    (∀ sensors : Nat → DHT,
      HandleParms ["sensor0".toList, "temp".toList] 2 sensors 6 =
        (sensors 0).readTemperature true) :=
  ⟨fun dht j label =>
    ⟨isnan_coerce _, isnan_coerce _, isnan_coerce _,
     isnan_coerce _, isnan_coerce _, isnan_coerce _,
     fun h => coerce_of_nan h, fun h => coerce_of_nan h, fun h => coerce_of_nan h,
     fun h => coerce_of_nan h, fun h => coerce_of_nan h, fun h => coerce_of_nan h⟩,
   fun _ => rfl⟩

/-- Claim C2, witness: the coercion implications of the amended theorem
discharged at the all-NaN sensor. -/
theorem C2_witness :
    (format_data_short nanDHT 0).2.1 = .val 0 ∧
    (format_data_short nanDHT 0).2.2.1 = .val 0 ∧
    (format_data_short nanDHT 0).2.2.2 = .val 0 ∧
    (format_data_long nanDHT []).2.1 = .val 0 ∧
    (format_data_long nanDHT []).2.2.1 = .val 0 ∧
    (format_data_long nanDHT []).2.2.2 = .val 0 := by
  obtain ⟨-, -, -, -, -, -, h1, h2, h3, h4, h5, h6⟩ := C2_amended.1 nanDHT 0 []
  exact ⟨h1 rfl, h2 rfl, h3 rfl, h4 rfl, h5 rfl, h6 rfl⟩

/-- Claim C3, counterexample: the error classification is not surfaced to
the caller — `HandleParms` returns only the float, and two requests failing
for different reasons (invalid sensor, err `1`, versus invalid operation,
err `3`) produce the identical caller-visible result `0`, so the caller
cannot observe which error occurred from the dispatch result. -/
theorem C3_counterexample :
    (HandleParmsE ["sensor9".toList, "temp".toList] 2 zeroSensors 6).2 = errInvalidSensor ∧
    (HandleParmsE ["sensor1".toList, "speed".toList] 2 zeroSensors 6).2 = errInvalidOperation ∧
    errInvalidSensor ≠ errInvalidOperation ∧
    HandleParms ["sensor9".toList, "temp".toList] 2 zeroSensors 6 =
      HandleParms ["sensor1".toList, "speed".toList] 2 zeroSensors 6 := by
  refine ⟨by decide, by decide, by decide, by decide⟩

/-- Claim C3, amended: for every segment sequence with count at least 2,
whenever dispatch ends with a nonzero internal error code the float it
returns is exactly `0`; the error code itself is only logged to serial and
kept in the local `err` variable — the caller receives just the float. -/
theorem C3_amended (parms : List (List Char)) (num_parms : Nat)
    (sensors : Nat → DHT) (num_sensors : Nat) (hnp : 2 ≤ num_parms)
    (herr : (HandleParmsE parms num_parms sensors num_sensors).2 ≠ 0) :
    HandleParms parms num_parms sensors num_sensors = FloatV.val 0 := by
  unfold HandleParms
  unfold HandleParmsE at herr ⊢
  exact pair_finalize herr

/-- Claim C3, witness: the amended theorem applied at a concrete failing
dispatch. -/
theorem C3_witness :
    (2 : Nat) ≤ 2 ∧
    (HandleParmsE ["sensor7".toList, "temp".toList] 2 zeroSensors 6).2 ≠ 0 ∧
    HandleParms ["sensor7".toList, "temp".toList] 2 zeroSensors 6 = FloatV.val 0 :=
  ⟨by decide, by decide,
   C3_amended ["sensor7".toList, "temp".toList] 2 zeroSensors 6 (by decide) (by decide)⟩

/-- Claim C4, counterexample: the path `/reportx` begins with `/report`,
yet the request line `GET /reportx HTTP/1.1` is classified as no route at
all — the report needle `"GET /report "` requires a space right after
`report`, so only the exact path `/report` matches. -/
theorem C4_counterexample :
    classifyRequest (lineOf "/reportx".toList) = Route.noMatch ∧
    Route.noMatch ≠ Route.report := by
  refine ⟨by decide, by decide⟩

/-- Claim C4, amended: with the checks tested in the fixed order root,
sensor, report (first match dispatched, as `classifyRequest` is defined),
a request line whose space-free path is exactly `/` is classified root, one
whose space-free path begins `/s` is classified sensor, and one whose path
is exactly `/report` is classified report. -/
theorem C4_amended :
    classifyRequest (lineOf "/".toList) = Route.root ∧
    (∀ rest : List Char, ' ' ∉ rest →
      classifyRequest (lineOf ('/' :: 's' :: rest)) = Route.sensor) ∧
    classifyRequest (lineOf "/report".toList) = Route.report := by
  refine ⟨by decide, ?_, by decide⟩
  intro rest hrest
  have hp : ' ' ∉ ('/' :: 's' :: rest) := by
    simp only [List.mem_cons]
    push_neg
    exact ⟨by decide, by decide, hrest⟩
  have hroot : InStr (lineOf ('/' :: 's' :: rest)) "GET / ".toList = false := by
    cases hI : InStr (lineOf ('/' :: 's' :: rest)) "GET / ".toList
    · rfl
    · exact absurd (InStr_implies_substr _ _ hI) (no_root_occurrence hp (by simp))
  have hsens : InStr (lineOf ('/' :: 's' :: rest)) "GET /s".toList = true := by
    apply InStr_of_prefix _ _ (by decide)
    exact ⟨rest ++ (' ' :: ['H', 'T', 'T', 'P', '/', '1', '.', '1']), rfl⟩
  unfold classifyRequest
  rw [hroot, hsens]
  rfl

/-- Claim C4, witness: the sensor branch of the amended theorem applied at
the concrete path `/sensor2/temp`. -/
theorem C4_witness :
    ' ' ∉ "ensor2/temp".toList ∧
    classifyRequest (lineOf ('/' :: 's' :: "ensor2/temp".toList)) = Route.sensor :=
  ⟨by decide, C4_amended.2.1 "ensor2/temp".toList (by decide)⟩

/-- Claim C5 (confirmed): the six dispatch scenarios of the specification,
against any sensor model in which sensor 0 reads 72.0 °F / 22.2 °C and
sensor 3 reads humidity 45.5. -/
theorem C5_dispatch_scenarios (sensors : Nat → DHT)
    (h0f : (sensors 0).readTemperature true = .val 72)
    (h0c : (sensors 0).readTemperature false = .val (22.2 : ℚ))
    (h3h : (sensors 3).readHumidity = .val (45.5 : ℚ)) :
    HandleParmsE ["sensor0".toList, "temp".toList] 2 sensors 6 = (.val 72, 0) ∧
    HandleParmsE ["sensor0".toList, "temp".toList, "c".toList] 3 sensors 6 =
      (.val (22.2 : ℚ), 0) ∧
    HandleParmsE ["sensor3".toList, "humidity".toList] 2 sensors 6 =
      (.val (45.5 : ℚ), 0) ∧
    HandleParmsE ["sensor9".toList, "temp".toList] 2 sensors 6 =
      (.val 0, errInvalidSensor) ∧
    HandleParmsE ["sensor1".toList, "speed".toList] 2 sensors 6 =
      (.val 0, errInvalidOperation) ∧
    HandleParmsE ["sensor1".toList, "temp".toList, "k".toList] 3 sensors 6 =
      (.val 0, errInvalidOption) := by
  refine ⟨?_, ?_, ?_, rfl, rfl, rfl⟩
  · rw [show HandleParmsE ["sensor0".toList, "temp".toList] 2 sensors 6 =
      ((sensors 0).readTemperature true, 0) from rfl, h0f]
  · rw [show HandleParmsE ["sensor0".toList, "temp".toList, "c".toList] 3 sensors 6 =
      ((sensors 0).readTemperature false, 0) from rfl, h0c]
  · rw [show HandleParmsE ["sensor3".toList, "humidity".toList] 2 sensors 6 =
      ((sensors 3).readHumidity, 0) from rfl, h3h]

/-- Claim C5, witness: the scenarios discharged at the concrete mock sensor
model. -/
theorem C5_witness :
    ((mockSensors 0).readTemperature true = .val 72 ∧
     (mockSensors 0).readTemperature false = .val (22.2 : ℚ) ∧
     (mockSensors 3).readHumidity = .val (45.5 : ℚ)) ∧
    HandleParmsE ["sensor0".toList, "temp".toList] 2 mockSensors 6 = (.val 72, 0) ∧
    HandleParmsE ["sensor0".toList, "temp".toList, "c".toList] 3 mockSensors 6 =
      (.val (22.2 : ℚ), 0) ∧
    HandleParmsE ["sensor3".toList, "humidity".toList] 2 mockSensors 6 =
      (.val (45.5 : ℚ), 0) ∧
    HandleParmsE ["sensor9".toList, "temp".toList] 2 mockSensors 6 =
      (.val 0, errInvalidSensor) ∧
    HandleParmsE ["sensor1".toList, "speed".toList] 2 mockSensors 6 =
      (.val 0, errInvalidOperation) ∧
    HandleParmsE ["sensor1".toList, "temp".toList, "k".toList] 3 mockSensors 6 =
      (.val 0, errInvalidOption) :=
  ⟨⟨rfl, rfl, rfl⟩, C5_dispatch_scenarios mockSensors rfl rfl rfl⟩

/-- Claim C6, counterexample: with both the option segment (`"k"`) and the
sensor segment (`"sensor9"`) invalid, the final classification is
`InvalidSensor` (err `1`), not `InvalidOption` (err `2`): the sensor check
runs after the option check and overwrites `err`. -/
theorem C6_counterexample :
    HandleParmsE ["sensor9".toList, "temp".toList, "k".toList] 3 zeroSensors 6 =
      (.val 0, errInvalidSensor) ∧
    errInvalidSensor ≠ errInvalidOption := by
  refine ⟨by decide, by decide⟩

/-- Claim C6, amended: when `count = 3`, segment 2 is neither `"c"` nor
`"f"`, and segment 0 is none of the literals `"sensor0"`..`"sensor5"`, the
error classification dispatch produces is `InvalidSensor` — the option check
runs first and sets err `2`, but the later sensor check unconditionally
overwrites it with err `1` (last write wins). -/
theorem C6_amended (sensors : Nat → DHT) (num_sensors : Nat) (s op opt : List Char)
    (hoptc : opt ≠ "c".toList) (hoptf : opt ≠ "f".toList)
    (hs0 : s ≠ "sensor0".toList) (hs1 : s ≠ "sensor1".toList)
    (hs2 : s ≠ "sensor2".toList) (hs3 : s ≠ "sensor3".toList)
    (hs4 : s ≠ "sensor4".toList) (hs5 : s ≠ "sensor5".toList) :
    HandleParmsE [s, op, opt] 3 sensors num_sensors = (.val 0, errInvalidSensor) := by
  unfold HandleParmsE errInvalidSensor
  simp only [List.getD_cons_zero, List.getD_cons_succ]
  rw [if_pos (by omega : (3 : Nat) > 2), if_neg hoptc, if_neg hoptf,
    if_neg hs0, if_neg hs1, if_neg hs2, if_neg hs3, if_neg hs4, if_neg hs5]
  rfl

/-- Claim C6, witness: the amended theorem applied at the concrete segments
`["sensorX", "speed", "q"]`. -/
theorem C6_witness :
    ("q".toList ≠ "c".toList ∧ "q".toList ≠ "f".toList ∧
     "sensorX".toList ≠ "sensor0".toList ∧ "sensorX".toList ≠ "sensor1".toList ∧
     "sensorX".toList ≠ "sensor2".toList ∧ "sensorX".toList ≠ "sensor3".toList ∧
     "sensorX".toList ≠ "sensor4".toList ∧ "sensorX".toList ≠ "sensor5".toList) ∧
    HandleParmsE ["sensorX".toList, "speed".toList, "q".toList] 3 zeroSensors 6 =
      (.val 0, errInvalidSensor) :=
  ⟨by decide,
   C6_amended zeroSensors 6 "sensorX".toList "speed".toList "q".toList
     (by decide) (by decide) (by decide) (by decide) (by decide) (by decide)
     (by decide) (by decide)⟩

/-- Claim C7, counterexample: with the empty needle `InStr` returns false
(here on haystack `"abc"`), not true — the success test `strlen(str2) == f`
sits behind a character match, and the character compared is the needle's
NUL terminator, which never matches a haystack character. -/
theorem C7_counterexample : InStr "abc".toList [] = false := by
  decide

/-- Claim C7, amended: `InStr` returns false whenever the needle is the
empty string (for every haystack), and returns false whenever the needle is
strictly longer than the haystack (the up-front length check). -/
theorem C7_amended :
    (∀ str1 : List Char, InStr str1 [] = false) ∧
    (∀ str1 str2 : List Char, str1.length < str2.length → InStr str1 str2 = false) := by
  constructor
  · intro str1
    unfold InStr
    rw [if_neg (by simp)]
    exact instrLoop_nil_needle str1 0
  · intro str1 str2 h
    unfold InStr
    rw [if_pos h]

/-- Claim C7, witness: the amended theorem applied at concrete strings. -/
theorem C7_witness :
    InStr "xyz".toList [] = false ∧
    "ab".toList.length < "abc".toList.length ∧
    InStr "ab".toList "abc".toList = false :=
  ⟨C7_amended.1 "xyz".toList, by decide, C7_amended.2 "ab".toList "abc".toList (by decide)⟩

/-- Claim C8 (confirmed): for any request line `GET /segA/segB/segC
HTTP/1.1` whose three segments are nonempty and free of `/` and spaces,
`GetParms` produces exactly `[segA, segB, segC]` in order with count 3; and
tokenizing the request line whose path is `/` alone produces zero
segments. -/
theorem C8_tokenizer (a b c : List Char)
    (ha : a ≠ []) (hb : b ≠ []) (hc : c ≠ [])
    (hA : ∀ x ∈ a, x ≠ '/' ∧ x ≠ ' ') (hB : ∀ x ∈ b, x ≠ '/' ∧ x ≠ ' ')
    (hC : ∀ x ∈ c, x ≠ '/' ∧ x ≠ ' ') :
    GetParms (lineOf ('/' :: (a ++ '/' :: (b ++ '/' :: c)))) 5 = ([a, b, c], 3) ∧
    GetParms (lineOf ['/']) 5 = ([], 0) := by
  refine ⟨?_, by decide⟩
  have hpns : ∀ x ∈ ('/' :: (a ++ '/' :: (b ++ '/' :: c))), x ≠ ' ' := by
    intro x hx
    rcases List.mem_cons.mp hx with rfl | hx
    · decide
    rcases List.mem_append.mp hx with hx | hx
    · exact (hA x hx).2
    rcases List.mem_cons.mp hx with rfl | hx
    · decide
    rcases List.mem_append.mp hx with hx | hx
    · exact (hB x hx).2
    rcases List.mem_cons.mp hx with rfl | hx
    · decide
    · exact (hC x hx).2
  have hsecond :
      secondField (lineOf ('/' :: (a ++ '/' :: (b ++ '/' :: c)))) =
        '/' :: (a ++ '/' :: (b ++ '/' :: c)) := by
    unfold secondField
    rw [show lineOf ('/' :: (a ++ '/' :: (b ++ '/' :: c))) =
        ['G', 'E', 'T'] ++ ' ' :: (('/' :: (a ++ '/' :: (b ++ '/' :: c))) ++
          ' ' :: ['H', 'T', 'T', 'P', '/', '1', '.', '1']) from rfl]
    rw [strtokAll_token_delim ' ' (by decide) (by decide)]
    rw [strtokAll_token_delim ' ' (by simp) hpns]
  have htok : strtokAll '/' ('/' :: (a ++ '/' :: (b ++ '/' :: c))) = [a, b, c] := by
    rw [strtokAll_cons_delim]
    rw [strtokAll_token_delim '/' ha (fun x hx => (hA x hx).1)]
    rw [strtokAll_token_delim '/' hb (fun x hx => (hB x hx).1)]
    rw [strtokAll_token_only '/' hc (fun x hx => (hC x hx).1)]
  unfold GetParms
  rw [hsecond, htok]
  rfl

/-- Claim C8, witness: the tokenizer theorem applied at the concrete path
`/sensor2/temp/c`. -/
theorem C8_witness :
    GetParms (lineOf ('/' :: ("sensor2".toList ++ '/' :: ("temp".toList ++ '/' :: "c".toList)))) 5 =
      (["sensor2".toList, "temp".toList, "c".toList], 3) :=
  (C8_tokenizer "sensor2".toList "temp".toList "c".toList
    (by decide) (by decide) (by decide) (by decide) (by decide) (by decide)).1

/-- Claim C9 (confirmed): for every request line every write of the storing
loop goes to an index below the maximum 5, and when the path holds more
than 5 segments the loop stores exactly the first 5, silently discards the
excess, and returns count 5. -/
theorem C9_bounded (req : List Char) :
    (∀ p ∈ GetParmsWrites req 5, p.1 < 5) ∧
    (5 < (strtokAll '/' (secondField req)).length →
      (GetParms req 5).1 = (strtokAll '/' (secondField req)).take 5 ∧
      (GetParms req 5).2 = 5) := by
  constructor
  · intro p hp
    exact storeParmsW_writes_lt 5 (strtokAll '/' (secondField req)) 0 p hp
  · intro hgt
    obtain ⟨h1, h2⟩ := storeParmsW_spec 5 (strtokAll '/' (secondField req)) 0 (by omega)
    constructor
    · show (storeParmsW 5 (strtokAll '/' (secondField req)) 0).1.map Prod.snd = _
      rw [h1]
    · show (storeParmsW 5 (strtokAll '/' (secondField req)) 0).2 = 5
      rw [h2]
      omega

/-- Claim C9, witness: the truncation branch applied to a request line with
six path segments. -/
theorem C9_witness :
    5 < (strtokAll '/' (secondField "GET /a/b/c/d/e/f HTTP/1.1".toList)).length ∧
    (GetParms "GET /a/b/c/d/e/f HTTP/1.1".toList 5).1 =
      (strtokAll '/' (secondField "GET /a/b/c/d/e/f HTTP/1.1".toList)).take 5 ∧
    (GetParms "GET /a/b/c/d/e/f HTTP/1.1".toList 5).2 = 5 :=
  ⟨by decide, (C9_bounded "GET /a/b/c/d/e/f HTTP/1.1".toList).2 (by decide)⟩

/-- Claim C10 (code bug): for every sensor index `j` in `0..5`,
`sprintf(label, "DHT%d", j)` writes 5 bytes (`D`, `H`, `T`, the digit, NUL)
while the destination `char label[] = ""` has capacity for exactly 1 byte —
the write runs 4 bytes past the end of the buffer, contradicting the
claim that every byte lies within bounds. -/
theorem C10_overflow (j : Nat) (hj : j < 6) :
    labelCapacity = 1 ∧ sprintfDHTBytes j = 5 ∧ labelCapacity < sprintfDHTBytes j := by
  interval_cases j <;> exact ⟨by decide, by decide, by decide⟩

/-- Claim C10, witness: the overflow at sensor index 0. -/
theorem C10_witness :
    (0 : Nat) < 6 ∧ labelCapacity = 1 ∧ sprintfDHTBytes 0 = 5 ∧
    labelCapacity < sprintfDHTBytes 0 :=
  ⟨by decide, C10_overflow 0 (by decide)⟩

end TempMon
